import Mathlib

/-!
Verification development for the feedback-system repository.

The repository under analysis ships the Next.js frontend (dashboards,
the chatbot feedback form, route middleware, JWT role decoding); the
FastAPI backend (token store, submission pipeline, analytics) is not
part of the source tree, so those components are modelled from the
specification and clearly marked as such in doc comments.  Everything
else is translated directly from the TypeScript sources.
-/

namespace FeedbackSystem

/-! ## Token store and submission pipeline (modelled from the spec) -/

/-- Modelled from the spec: lifecycle state of a single-use feedback token
(`unused → reserved → {consumed | unused}`, §4.1/§5); the backend
`TokenStore` is not in the source tree. -/
inductive TokenState where
  | unused : TokenState
  | reserved (rid : Nat) : TokenState
  | used (rid : Nat) : TokenState
deriving DecidableEq, Repr

/-- Modelled from the spec: persisted state owned by `TokenStore` and
`SubmissionPipeline` — per-token lifecycle state, committed Feedback rows
(each naming the consumed token) and RejectedAttempt rows. -/
structure Store where
  tokens : Nat → TokenState
  issued : List Nat
  feedbacks : List (Nat × Int × String)
  rejected : List (Nat × String)

/-- The store in which every token is unissued and unused. -/
def initStore : Store :=
  { tokens := fun _ => TokenState.unused
    issued := []
    feedbacks := []
    rejected := [] }

/-- Modelled from the spec: the atomic `TokenStore` operations of §4.1,
as events of a transition system; interleavings of concurrent callers are
arbitrary sequences of these events. -/
inductive Ev where
  | reserve (t rid : Nat) : Ev
  | commit (t rid : Nat) : Ev
  | release (t rid : Nat) : Ev
deriving DecidableEq, Repr

/-- Update one token's state, leaving the rest of the store alone. -/
def Store.setTok (s : Store) (t : Nat) (st : TokenState) : Store :=
  { s with tokens := fun u => if u = t then st else s.tokens u }

/-- Modelled from the spec: one atomic step.  `reserve` is the
compare-and-swap `unused → reserved`; `commit` finalizes consumption and
persists the Feedback row atomically (idempotent no-op when that
reservation is already committed); `release` returns a reserved token to
`unused`.  The returned Bool is whether the call succeeded. -/
def step (s : Store) (e : Ev) : Store × Bool :=
  match e with
  | Ev.reserve t rid =>
      match s.tokens t with
      | TokenState.unused => (s.setTok t (TokenState.reserved rid), true)
      | _ => (s, false)
  | Ev.commit t rid =>
      match s.tokens t with
      | TokenState.reserved rid2 =>
          if rid2 = rid then
            ({ s.setTok t (TokenState.used rid) with
                feedbacks := (t, 0, "") :: s.feedbacks }, true)
          else (s, false)
      | TokenState.used rid2 => (s, rid2 = rid)
      | _ => (s, false)
  | Ev.release t rid =>
      match s.tokens t with
      | TokenState.reserved rid2 =>
          if rid2 = rid then (s.setTok t TokenState.unused, true)
          else (s, false)
      | _ => (s, false)

/-- Run a list of events from a store. -/
def run (s : Store) : List Ev → Store
  | [] => s
  | e :: es => run (step s e).fst es

/-- Number of events of a trace that succeed when run in order. -/
def successCount (s : Store) : List Ev → Nat
  | [] => 0
  | e :: es =>
      (if (step s e).snd then 1 else 0) + successCount (step s e).fst es

/-- Number of Feedback rows referencing token `t`. -/
def countFeedback (s : Store) (t : Nat) : Nat :=
  (s.feedbacks.filter (fun f => f.fst = t)).length

/-- Whether token `t` is consumed (`is_used` of the status query). -/
def Store.isUsed (s : Store) (t : Nat) : Bool :=
  match s.tokens t with
  | TokenState.used _ => true
  | _ => false

/-- The per-token invariant tying lifecycle state to Feedback rows: a
consumed token has exactly one Feedback row, a live one has none. -/
def TokInv (s : Store) (t : Nat) : Prop :=
  match s.tokens t with
  | TokenState.used _ => countFeedback s t = 1
  | _ => countFeedback s t = 0

theorem countFeedback_setTok (s : Store) (t u : Nat) (st : TokenState) :
    countFeedback (s.setTok u st) t = countFeedback s t := rfl

theorem tokens_setTok (s : Store) (t u : Nat) (st : TokenState) :
    (s.setTok u st).tokens t = if t = u then st else s.tokens t := by
  simp [Store.setTok]

theorem step_reserve_hit (s : Store) (u rid : Nat)
    (h : s.tokens u = TokenState.unused) :
    step s (Ev.reserve u rid) = (s.setTok u (TokenState.reserved rid), true) := by
  simp [step, h]

theorem step_reserve_miss (s : Store) (u rid : Nat)
    (h : s.tokens u ≠ TokenState.unused) :
    step s (Ev.reserve u rid) = (s, false) := by
  cases hst : s.tokens u with
  | unused => exact absurd hst h
  | reserved rid2 => simp [step, hst]
  | used rid2 => simp [step, hst]

theorem step_commit_hit (s : Store) (u rid : Nat)
    (h : s.tokens u = TokenState.reserved rid) :
    step s (Ev.commit u rid) =
      ({ s.setTok u (TokenState.used rid) with
          feedbacks := (u, 0, "") :: s.feedbacks }, true) := by
  simp [step, h]

theorem step_commit_miss (s : Store) (u rid : Nat)
    (h : s.tokens u ≠ TokenState.reserved rid) :
    (step s (Ev.commit u rid)).fst = s := by
  cases hst : s.tokens u with
  | unused => simp [step, hst]
  | reserved rid2 =>
      have : rid2 ≠ rid := fun hh => h (by rw [hst, hh])
      simp [step, hst, this]
  | used rid2 => simp [step, hst]

theorem step_release_hit (s : Store) (u rid : Nat)
    (h : s.tokens u = TokenState.reserved rid) :
    step s (Ev.release u rid) = (s.setTok u TokenState.unused, true) := by
  simp [step, h]

theorem step_release_miss (s : Store) (u rid : Nat)
    (h : s.tokens u ≠ TokenState.reserved rid) :
    (step s (Ev.release u rid)).fst = s := by
  cases hst : s.tokens u with
  | unused => simp [step, hst]
  | reserved rid2 =>
      have : rid2 ≠ rid := fun hh => h (by rw [hst, hh])
      simp [step, hst, this]
  | used rid2 => simp [step, hst]

theorem countFeedback_commitStore (s : Store) (t u : Nat) (rid : Nat) :
    countFeedback
      { s.setTok u (TokenState.used rid) with
          feedbacks := (u, 0, "") :: s.feedbacks } t =
      countFeedback s t + (if u = t then 1 else 0) := by
  by_cases hut : u = t
  · subst hut
    simp [countFeedback, List.filter_cons]
  · simp [countFeedback, List.filter_cons, hut]

theorem tokInv_step (s : Store) (e : Ev) (t : Nat) (h : TokInv s t) :
    TokInv (step s e).fst t := by
  cases e with
  | reserve u rid =>
      by_cases hst : s.tokens u = TokenState.unused
      · rw [show (step s (Ev.reserve u rid)).fst =
            s.setTok u (TokenState.reserved rid) from
            congrArg Prod.fst (step_reserve_hit s u rid hst)]
        unfold TokInv at h ⊢
        rw [tokens_setTok]
        by_cases htu : t = u
        · subst htu
          rw [if_pos rfl]
          rw [hst] at h
          exact h
        · rw [if_neg htu]
          exact h
      · rw [show (step s (Ev.reserve u rid)).fst = s from
            congrArg Prod.fst (step_reserve_miss s u rid hst)]
        exact h
  | commit u rid =>
      by_cases hst : s.tokens u = TokenState.reserved rid
      · rw [show (step s (Ev.commit u rid)).fst =
            { s.setTok u (TokenState.used rid) with
                feedbacks := (u, 0, "") :: s.feedbacks } from
            congrArg Prod.fst (step_commit_hit s u rid hst)]
        unfold TokInv at h ⊢
        by_cases htu : t = u
        · subst htu
          rw [hst] at h
          have hcnt0 : countFeedback s t = 0 := h
          have htok : (({ s.setTok t (TokenState.used rid) with
              feedbacks := (t, 0, "") :: s.feedbacks } : Store).tokens t) =
              TokenState.used rid := by
            show (s.setTok t (TokenState.used rid)).tokens t = _
            rw [tokens_setTok, if_pos rfl]
          rw [htok]
          show countFeedback _ t = 1
          rw [countFeedback_commitStore, if_pos rfl, hcnt0]

        · have htok : (({ s.setTok u (TokenState.used rid) with
              feedbacks := (u, 0, "") :: s.feedbacks } : Store).tokens t) =
              s.tokens t := by
            show (s.setTok u (TokenState.used rid)).tokens t = _
            rw [tokens_setTok, if_neg htu]
          have hut : ¬ (u = t) := fun hh => htu hh.symm
          rw [htok]
          cases hs2 : s.tokens t with
          | unused =>
              rw [hs2] at h
              show countFeedback _ t = 0
              rw [countFeedback_commitStore, if_neg hut, Nat.add_zero]
              exact h
          | reserved r2 =>
              rw [hs2] at h
              show countFeedback _ t = 0
              rw [countFeedback_commitStore, if_neg hut, Nat.add_zero]
              exact h
          | used r2 =>
              rw [hs2] at h
              show countFeedback _ t = 1
              rw [countFeedback_commitStore, if_neg hut, Nat.add_zero]
              exact h
      · rw [step_commit_miss s u rid hst]; exact h
  | release u rid =>
      by_cases hst : s.tokens u = TokenState.reserved rid
      · rw [show (step s (Ev.release u rid)).fst =
            s.setTok u TokenState.unused from
            congrArg Prod.fst (step_release_hit s u rid hst)]
        unfold TokInv at h ⊢
        rw [tokens_setTok]
        by_cases htu : t = u
        · subst htu
          rw [if_pos rfl]
          rw [hst] at h
          exact h
        · rw [if_neg htu]
          exact h
      · rw [step_release_miss s u rid hst]; exact h

theorem tokInv_run (s : Store) (evs : List Ev) (t : Nat) (h : TokInv s t) :
    TokInv (run s evs) t := by
  induction evs generalizing s with
  | nil => exact h
  | cons e es ih => exact ih _ (tokInv_step s e t h)

theorem tokInv_init (t : Nat) : TokInv initStore t := by
  simp [TokInv, initStore, countFeedback]

/-- A reserve event on token `t` (with any reservation id). -/
def isReserveOn (t : Nat) : Ev → Prop
  | Ev.reserve u _ => u = t
  | _ => False

theorem successCount_reserves_nonunused (t : Nat)
    (evs : List Ev) (hall : ∀ e ∈ evs, isReserveOn t e) :
    ∀ s : Store, s.tokens t ≠ TokenState.unused → successCount s evs = 0 := by
  induction evs with
  | nil => intro s _; rfl
  | cons e es ih =>
      intro s hs
      obtain ⟨u, rid, rfl⟩ : ∃ u rid, e = Ev.reserve u rid := by
        cases e with
        | reserve u rid => exact ⟨u, rid, rfl⟩
        | commit u rid =>
            exact (hall (Ev.commit u rid) (List.mem_cons_self _ _)).elim
        | release u rid =>
            exact (hall (Ev.release u rid) (List.mem_cons_self _ _)).elim
      have hu : u = t := hall (Ev.reserve u rid) (List.mem_cons_self _ _)
      subst hu
      have htail : ∀ e ∈ es, isReserveOn u e :=
        fun e he => hall e (List.mem_cons_of_mem _ he)
      have hmiss := step_reserve_miss s u rid hs
      simp only [successCount, hmiss]
      simpa using ih htail s hs

theorem successCount_reserves_le_one (t : Nat)
    (evs : List Ev) (hall : ∀ e ∈ evs, isReserveOn t e) :
    ∀ s : Store, successCount s evs ≤ 1 := by
  induction evs with
  | nil => intro s; exact Nat.zero_le 1
  | cons e es ih =>
      intro s
      obtain ⟨u, rid, rfl⟩ : ∃ u rid, e = Ev.reserve u rid := by
        cases e with
        | reserve u rid => exact ⟨u, rid, rfl⟩
        | commit u rid =>
            exact (hall (Ev.commit u rid) (List.mem_cons_self _ _)).elim
        | release u rid =>
            exact (hall (Ev.release u rid) (List.mem_cons_self _ _)).elim
      have hu : u = t := hall (Ev.reserve u rid) (List.mem_cons_self _ _)
      subst hu
      have htail : ∀ e ∈ es, isReserveOn u e :=
        fun e he => hall e (List.mem_cons_of_mem _ he)
      by_cases hst : s.tokens u = TokenState.unused
      · have hhit := step_reserve_hit s u rid hst
        simp only [successCount, hhit]
        have hres : (s.setTok u (TokenState.reserved rid)).tokens u ≠
            TokenState.unused := by
          simp [Store.setTok]
        have hz := successCount_reserves_nonunused u es htail
          (s.setTok u (TokenState.reserved rid)) hres
        simp [hz]
      · have hmiss := step_reserve_miss s u rid hst
        simp only [successCount, hmiss]
        simpa using ih htail s

theorem successCount_reserves_pos (t rid : Nat) (evs : List Ev) (s : Store)
    (hs : s.tokens t = TokenState.unused) :
    1 ≤ successCount s (Ev.reserve t rid :: evs) := by
  simp [successCount, step_reserve_hit s t rid hs]

/-- C1: for every token, the store invariant ties `is_used` to the unique
Feedback row, and concurrent reserve racers admit at most one winner.
Modelled from the spec (§3, §5, §8): the backend `TokenStore` is not in
the source tree.  Conjuncts: (1) at most one Feedback row ever references
`t`; (2) `is_used` is true iff exactly one such row exists; (3) any race
of reserve calls on `t` from a reachable state has at most one success;
(4) when `t` is unused and the race is nonempty, exactly one succeeds. -/
theorem c1_token_exactly_once (evs : List Ev) (t : Nat)
    (race : List Ev) (hrace : ∀ e ∈ race, isReserveOn t e) :
    countFeedback (run initStore evs) t ≤ 1 ∧
    ((run initStore evs).isUsed t = true ↔
      countFeedback (run initStore evs) t = 1) ∧
    successCount (run initStore evs) race ≤ 1 ∧
    ((run initStore evs).tokens t = TokenState.unused → race ≠ [] →
      successCount (run initStore evs) race = 1) := by
  have hinv := tokInv_run initStore evs t (tokInv_init t)
  unfold TokInv at hinv
  have hle := successCount_reserves_le_one t race hrace (run initStore evs)
  refine ⟨?_, ?_, hle, ?_⟩
  · cases hs : (run initStore evs).tokens t with
    | unused => rw [hs] at hinv; omega
    | reserved r => rw [hs] at hinv; omega
    | used r => rw [hs] at hinv; omega
  · cases hs : (run initStore evs).tokens t with
    | unused =>
        rw [hs] at hinv
        simp only [Store.isUsed, hs]
        constructor
        · intro hfalse; cases hfalse
        · intro h1; omega
    | reserved r =>
        rw [hs] at hinv
        simp only [Store.isUsed, hs]
        constructor
        · intro hfalse; cases hfalse
        · intro h1; omega
    | used r =>
        rw [hs] at hinv
        simp only [Store.isUsed, hs]
        exact ⟨fun _ => hinv, fun _ => trivial⟩
  · intro hunused hne
    match race, hne with
    | e :: rest, _ =>
      obtain ⟨u, rid, rfl⟩ : ∃ u rid, e = Ev.reserve u rid := by
        cases e with
        | reserve u rid => exact ⟨u, rid, rfl⟩
        | commit u rid =>
            exact (hrace (Ev.commit u rid) (List.mem_cons_self _ _)).elim
        | release u rid =>
            exact (hrace (Ev.release u rid) (List.mem_cons_self _ _)).elim
      have hu : u = t := hrace (Ev.reserve u rid) (List.mem_cons_self _ _)
      subst hu
      have hpos := successCount_reserves_pos u rid rest (run initStore evs)
        hunused
      have hl := successCount_reserves_le_one u (Ev.reserve u rid :: rest)
        (by
          intro e he
          exact hrace e he) (run initStore evs)
      omega

theorem c1_token_exactly_once_witness :
    (∀ e ∈ [Ev.reserve 0 2, Ev.reserve 0 3], isReserveOn 0 e) ∧
    (countFeedback (run initStore [Ev.reserve 0 1, Ev.commit 0 1]) 0 ≤ 1 ∧
      ((run initStore [Ev.reserve 0 1, Ev.commit 0 1]).isUsed 0 = true ↔
        countFeedback (run initStore [Ev.reserve 0 1, Ev.commit 0 1]) 0 = 1) ∧
      successCount (run initStore [Ev.reserve 0 1, Ev.commit 0 1])
        [Ev.reserve 0 2, Ev.reserve 0 3] ≤ 1 ∧
      ((run initStore [Ev.reserve 0 1, Ev.commit 0 1]).tokens 0 =
          TokenState.unused → [Ev.reserve 0 2, Ev.reserve 0 3] ≠ [] →
        successCount (run initStore [Ev.reserve 0 1, Ev.commit 0 1])
          [Ev.reserve 0 2, Ev.reserve 0 3] = 1)) :=
  ⟨by simp [isReserveOn],
    c1_token_exactly_once [Ev.reserve 0 1, Ev.commit 0 1] 0
      [Ev.reserve 0 2, Ev.reserve 0 3] (by simp [isReserveOn])⟩

/-! ## Submission pipeline (modelled from the spec, §4.3) -/

/-- Modelled from the spec: result taxonomy of `SubmissionPipeline.submit`
(§4.3/§7); the backend pipeline is not in the source tree. -/
inductive SubmitResult where
  | ok : SubmitResult
  | invalidInput : SubmitResult
  | tokenInvalid : SubmitResult
  | tokenAlreadyUsed : SubmitResult
  | contentRejected (reason : String) : SubmitResult
deriving DecidableEq, Repr

/-- Modelled from the spec: pipeline configuration — the configured
minimum text length (§4.3 step 1) and the pluggable toxicity classifier
(§4.2), `some reason` meaning flagged. -/
structure PipelineConfig where
  minLen : Nat
  classify : String → Option String

/-- Modelled from the spec: `SubmissionPipeline.submit` (§4.3), with the
sequential reserve/release pair collapsed: validate input, reserve the
token, classify; when flagged persist a RejectedAttempt and release
(token stays `unused`); when clean commit the Feedback row and consume
the token atomically. -/
def submit (cfg : PipelineConfig) (s : Store) (tok rid : Nat)
    (rating : Int) (text : String) : Store × SubmitResult :=
  if rating < 1 ∨ 5 < rating ∨ text = "" ∨ text.length < cfg.minLen then
    (s, SubmitResult.invalidInput)
  else if tok ∈ s.issued then
    match s.tokens tok with
    | TokenState.unused =>
        match cfg.classify text with
        | some reason =>
            ({ s with rejected := (tok, reason) :: s.rejected },
              SubmitResult.contentRejected reason)
        | none =>
            ({ s.setTok tok (TokenState.used rid) with
                feedbacks := (tok, rating, text) :: s.feedbacks },
              SubmitResult.ok)
    | _ => (s, SubmitResult.tokenAlreadyUsed)
  else (s, SubmitResult.tokenInvalid)

/-! ## Chatbot feedback client (frontend/app/components/ChatbotFeedback.tsx) -/

/-- Strip leading and trailing whitespace — the embedding of JS
`String.prototype.trim` used throughout the client. -/
def jsTrim (s : String) : String :=
  String.mk
    (((s.toList.dropWhile Char.isWhitespace).reverse.dropWhile
      Char.isWhitespace).reverse)

/-- Shape of the token-status response consulted by the form
(`TokenStatus` in ChatbotFeedback.tsx). -/
structure TokenStatusResp where
  can_submit : Bool
  reason : Option String
deriving DecidableEq, Repr

/-- The component state read by `handleSubmit` in ChatbotFeedback.tsx:
submission flags, auth token, feedback token, last token status, star
rating, answered quick questions and the free-text comment. -/
structure ClientState where
  isSubmitting : Bool
  submitted : Bool
  authToken : String
  token : String
  tokenStatus : Option TokenStatusResp
  rating : Nat
  quickAnswers : List (String × String)
  text : String

/-- The observable outcome of one `handleSubmit` call: silently return,
show a toast, show a submit error, or issue the network request. -/
inductive ClientAction where
  | skip : ClientAction
  | toastMsg (m : String) : ClientAction
  | errorMsg (m : String) : ClientAction
  | sendRequest (token : String) (rating : Nat) (text : String) : ClientAction
deriving DecidableEq, Repr

/-- `QUICK_QUESTIONS` of ChatbotFeedback.tsx as (id, prompt) pairs. -/
def QUICK_QUESTIONS : List (String × String) :=
  [("clarity", "How clear was the lecturer's explanation?"),
   ("pace", "How was the lecture pace?"),
   ("engagement", "How engaging was the lecture?"),
   ("materials", "How useful were examples/materials?"),
   ("confidence", "How confident do you feel after this class?")]

/-- JS `quickAnswers[question.id] || "-"` of the quick summary. -/
def quickAnswerFor (answers : List (String × String)) (qid : String) : String :=
  match answers.find? (fun a => a.fst == qid) with
  | some a => if a.snd = "" then "-" else a.snd
  | none => "-"

/-- `Object.keys(quickAnswers).length` (duplicate keys collapse). -/
def quickKeysCount (answers : List (String × String)) : Nat :=
  ((answers.map Prod.fst).eraseDups).length

/-- The `combinedText` sent by `handleSubmit` in ChatbotFeedback.tsx. -/
def combinedText (st : ClientState) : String :=
  "Quick responses: " ++
    String.intercalate " | "
      (QUICK_QUESTIONS.map
        (fun q => q.snd ++ ": " ++ quickAnswerFor st.quickAnswers q.fst)) ++
    "\nStudent comment: " ++ jsTrim st.text

/-- The `tokenStatus && !tokenStatus.can_submit` guard. -/
def tokenStatusBlocks (st : ClientState) : Bool :=
  match st.tokenStatus with
  | some ts => !ts.can_submit
  | none => false

/-- `tokenStatus.reason || "This token cannot be used for submission."`. -/
def tokenStatusReason (st : ClientState) : String :=
  match st.tokenStatus with
  | some ts =>
      match ts.reason with
      | some r => if r = "" then "This token cannot be used for submission." else r
      | none => "This token cannot be used for submission."
  | none => "This token cannot be used for submission."

/-- The guard cascade of `handleSubmit` in ChatbotFeedback.tsx
(lines 211-265), in source order, ending in the `submitFeedback` call. -/
def handleSubmitAction (st : ClientState) : ClientAction :=
  if st.isSubmitting = true ∨ st.submitted = true then ClientAction.skip
  else if st.authToken = "" then
    ClientAction.errorMsg "Please login as a student before submitting feedback."
  else if jsTrim st.token = "" then
    ClientAction.toastMsg "Missing feedback token. Please use your course link."
  else if tokenStatusBlocks st = true then
    ClientAction.errorMsg (tokenStatusReason st)
  else if st.rating = 0 then
    ClientAction.toastMsg "Please select a rating before continuing."
  else if quickKeysCount st.quickAnswers < QUICK_QUESTIONS.length then
    ClientAction.toastMsg "Please answer all 5 quick questions before submitting."
  else if jsTrim st.text = "" then
    ClientAction.toastMsg "Please answer the guided questions and write your final comment."
  else if (jsTrim st.text).length < 20 then
    ClientAction.toastMsg "Please provide at least 20 characters so your feedback is useful."
  else ClientAction.sendRequest (jsTrim st.token) st.rating (combinedText st)

/-- Whether the action issues the network request. -/
def ClientAction.isSend : ClientAction → Bool
  | ClientAction.sendRequest _ _ _ => true
  | _ => false

theorem handleSubmit_send_conditions (st : ClientState)
    (h : (handleSubmitAction st).isSend = true) :
    st.rating ≠ 0 ∧ 20 ≤ (jsTrim st.text).length := by
  unfold handleSubmitAction at h
  by_cases h1 : st.isSubmitting = true ∨ st.submitted = true
  · rw [if_pos h1] at h; simp [ClientAction.isSend] at h
  · rw [if_neg h1] at h
    by_cases h2 : st.authToken = ""
    · rw [if_pos h2] at h; simp [ClientAction.isSend] at h
    · rw [if_neg h2] at h
      by_cases h3 : jsTrim st.token = ""
      · rw [if_pos h3] at h; simp [ClientAction.isSend] at h
      · rw [if_neg h3] at h
        by_cases h4 : tokenStatusBlocks st = true
        · rw [if_pos h4] at h; simp [ClientAction.isSend] at h
        · rw [if_neg h4] at h
          by_cases h5 : st.rating = 0
          · rw [if_pos h5] at h; simp [ClientAction.isSend] at h
          · rw [if_neg h5] at h
            by_cases h6 : quickKeysCount st.quickAnswers < QUICK_QUESTIONS.length
            · rw [if_pos h6] at h; simp [ClientAction.isSend] at h
            · rw [if_neg h6] at h
              by_cases h7 : jsTrim st.text = ""
              · rw [if_pos h7] at h; simp [ClientAction.isSend] at h
              · rw [if_neg h7] at h
                by_cases h8 : (jsTrim st.text).length < 20
                · rw [if_pos h8] at h; simp [ClientAction.isSend] at h
                · exact ⟨h5, Nat.le_of_not_lt h8⟩

/-- C3: a submission whose rating lies outside [1,5] or whose text is
empty or below the configured minimum length fails with `InvalidInput`
without touching the token store (pipeline modelled from the spec), and
the client form never issues the request when the rating is 0 or the
trimmed comment is shorter than 20 characters; if no earlier guard
already halted the call, the user sees a local toast message. -/
theorem c3_invalid_input_rejected_locally
    (cfg : PipelineConfig) (s : Store) (tok rid : Nat) (rating : Int)
    (text : String) (st : ClientState)
    (hbad : rating < 1 ∨ 5 < rating ∨ text = "" ∨ text.length < cfg.minLen)
    (hcl : st.rating = 0 ∨ (jsTrim st.text).length < 20) :
    submit cfg s tok rid rating text = (s, SubmitResult.invalidInput) ∧
    (handleSubmitAction st).isSend = false ∧
    (st.isSubmitting = false → st.submitted = false → st.authToken ≠ "" →
      jsTrim st.token ≠ "" → tokenStatusBlocks st = false →
      ∃ m, handleSubmitAction st = ClientAction.toastMsg m) := by
  refine ⟨?_, ?_, ?_⟩
  · unfold submit
    rw [if_pos hbad]
  · by_cases hsend : (handleSubmitAction st).isSend = true
    · obtain ⟨hr, hlen⟩ := handleSubmit_send_conditions st hsend
      rcases hcl with h | h
      · exact absurd h hr
      · omega
    · exact Bool.eq_false_iff.mpr (fun hc => hsend hc)
  · intro hsub hsubm hauth htok hts
    unfold handleSubmitAction
    rw [if_neg (by simp [hsub, hsubm]), if_neg hauth, if_neg htok,
      if_neg (by simp [hts])]
    by_cases hr : st.rating = 0
    · rw [if_pos hr]; exact ⟨_, rfl⟩
    · rw [if_neg hr]
      have hlen : (jsTrim st.text).length < 20 := by
        rcases hcl with h | h
        · exact absurd h hr
        · exact h
      by_cases hq : quickKeysCount st.quickAnswers < QUICK_QUESTIONS.length
      · rw [if_pos hq]; exact ⟨_, rfl⟩
      · rw [if_neg hq]
        by_cases he : jsTrim st.text = ""
        · rw [if_pos he]; exact ⟨_, rfl⟩
        · rw [if_neg he, if_pos hlen]; exact ⟨_, rfl⟩

theorem c3_invalid_input_rejected_locally_witness :
    (((6 : Int) < 1 ∨ 5 < (6 : Int) ∨ "good feedback text" = "" ∨
        "good feedback text".length < 3) ∧
      ((0 : Nat) = 0 ∨ (jsTrim "short").length < 20)) ∧
    (submit ⟨3, fun _ => none⟩ initStore 0 1 6 "good feedback text" =
        (initStore, SubmitResult.invalidInput) ∧
      (handleSubmitAction
        { isSubmitting := false, submitted := false, authToken := "auth"
          token := "tok", tokenStatus := none, rating := 0
          quickAnswers := [], text := "short" }).isSend = false ∧
      (false = false → false = false → ("auth" : String) ≠ "" →
        jsTrim "tok" ≠ "" →
        tokenStatusBlocks
          { isSubmitting := false, submitted := false, authToken := "auth"
            token := "tok", tokenStatus := none, rating := 0
            quickAnswers := [], text := "short" } = false →
        ∃ m, handleSubmitAction
          { isSubmitting := false, submitted := false, authToken := "auth"
            token := "tok", tokenStatus := none, rating := 0
            quickAnswers := [], text := "short" } =
          ClientAction.toastMsg m)) :=
  ⟨⟨by decide, by decide⟩,
    c3_invalid_input_rejected_locally ⟨3, fun _ => none⟩ initStore 0 1 6
      "good feedback text"
      { isSubmitting := false, submitted := false, authToken := "auth"
        token := "tok", tokenStatus := none, rating := 0
        quickAnswers := [], text := "short" }
      (by decide) (by decide)⟩

/-- C4: a flagged submission is rejected with `ContentRejected`, a
RejectedAttempt is persisted, the token returns to `unused` and keeps its
Feedback-free state, and a clean retry with the same token then
succeeds.  Modelled from the spec (§4.3 step 3, §8): the backend
pipeline is not in the source tree. -/
theorem c4_content_rejected_leaves_token_usable
    (cfg : PipelineConfig) (s : Store) (tok rid rid2 : Nat)
    (rating rating2 : Int) (text text2 reason : String)
    (hiss : tok ∈ s.issued)
    (hunused : s.tokens tok = TokenState.unused)
    (hok1 : ¬ (rating < 1 ∨ 5 < rating ∨ text = "" ∨
      text.length < cfg.minLen))
    (hflag : cfg.classify text = some reason)
    (hok2 : ¬ (rating2 < 1 ∨ 5 < rating2 ∨ text2 = "" ∨
      text2.length < cfg.minLen))
    (hclean : cfg.classify text2 = none) :
    (submit cfg s tok rid rating text).snd =
      SubmitResult.contentRejected reason ∧
    (submit cfg s tok rid rating text).fst.tokens tok =
      TokenState.unused ∧
    (tok, reason) ∈ (submit cfg s tok rid rating text).fst.rejected ∧
    (submit cfg s tok rid rating text).fst.feedbacks = s.feedbacks ∧
    (submit cfg (submit cfg s tok rid rating text).fst tok rid2 rating2
      text2).snd = SubmitResult.ok ∧
    (tok, rating2, text2) ∈
      (submit cfg (submit cfg s tok rid rating text).fst tok rid2 rating2
        text2).fst.feedbacks := by
  have h1 : submit cfg s tok rid rating text =
      ({ s with rejected := (tok, reason) :: s.rejected },
        SubmitResult.contentRejected reason) := by
    unfold submit
    rw [if_neg hok1, if_pos hiss, hunused, hflag]
  rw [h1]
  refine ⟨rfl, hunused, List.mem_cons_self _ _, rfl, ?_, ?_⟩
  · unfold submit
    rw [if_neg hok2, if_pos (by simpa using hiss)]
    have : ({ s with rejected := (tok, reason) :: s.rejected } :
        Store).tokens tok = TokenState.unused := hunused
    rw [this, hclean]
  · unfold submit
    rw [if_neg hok2, if_pos (by simpa using hiss)]
    have : ({ s with rejected := (tok, reason) :: s.rejected } :
        Store).tokens tok = TokenState.unused := hunused
    rw [this, hclean]
    exact List.mem_cons_self _ _

theorem c4_content_rejected_leaves_token_usable_witness :
    ((0 : Nat) ∈ ({ initStore with issued := [0] } : Store).issued ∧
      ({ initStore with issued := [0] } : Store).tokens 0 =
        TokenState.unused) ∧
    ((submit ⟨3, fun t => if t = "idiot lecturer" then some "toxicity"
        else none⟩ { initStore with issued := [0] } 0 1 2
        "idiot lecturer").snd = SubmitResult.contentRejected "toxicity" ∧
      (submit ⟨3, fun t => if t = "idiot lecturer" then some "toxicity"
        else none⟩ { initStore with issued := [0] } 0 1 2
        "idiot lecturer").fst.tokens 0 = TokenState.unused ∧
      (0, "toxicity") ∈ (submit ⟨3, fun t => if t = "idiot lecturer"
        then some "toxicity" else none⟩ { initStore with issued := [0] }
        0 1 2 "idiot lecturer").fst.rejected ∧
      (submit ⟨3, fun t => if t = "idiot lecturer" then some "toxicity"
        else none⟩ { initStore with issued := [0] } 0 1 2
        "idiot lecturer").fst.feedbacks =
        ({ initStore with issued := [0] } : Store).feedbacks ∧
      (submit ⟨3, fun t => if t = "idiot lecturer" then some "toxicity"
        else none⟩ (submit ⟨3, fun t => if t = "idiot lecturer" then
        some "toxicity" else none⟩ { initStore with issued := [0] } 0 1 2
        "idiot lecturer").fst 0 2 5 "clear pace, great").snd =
        SubmitResult.ok ∧
      (0, 5, "clear pace, great") ∈ (submit ⟨3, fun t =>
        if t = "idiot lecturer" then some "toxicity" else none⟩
        (submit ⟨3, fun t => if t = "idiot lecturer" then some "toxicity"
        else none⟩ { initStore with issued := [0] } 0 1 2
        "idiot lecturer").fst 0 2 5 "clear pace, great").fst.feedbacks) :=
  ⟨⟨by decide, rfl⟩,
    c4_content_rejected_leaves_token_usable
      ⟨3, fun t => if t = "idiot lecturer" then some "toxicity" else none⟩
      { initStore with issued := [0] } 0 1 2 2 5 "idiot lecturer"
      "clear pace, great" "toxicity" (by decide) rfl (by decide)
      (by decide) (by decide) (by decide)⟩

/-! ## Admin token generation (AdminDashboard in ChatbotFeedback.tsx) -/

/-- The observable outcome of one `handleGenerateTokens` call. -/
inductive GenAction where
  | skip : GenAction
  | localError (m : String) : GenAction
  | callEndpoint (lecturer : String) (course : String) (quantity : Int) :
      GenAction
deriving DecidableEq, Repr

/-- The guard cascade of `handleGenerateTokens` (ChatbotFeedback.tsx,
lines 950-976), in source order, ending in the `generateFeedbackTokens`
request. -/
def handleGenerateTokensAction (authTok courseInput lecturerSel : String)
    (quantity : Int) : GenAction :=
  if authTok = "" then GenAction.skip
  else if jsTrim courseInput = "" ∨ lecturerSel = "" then
    GenAction.localError "Select a lecturer and course for token generation."
  else if quantity < 1 ∨ 500 < quantity then
    GenAction.localError "Quantity must be between 1 and 500."
  else GenAction.callEndpoint lecturerSel (jsTrim courseInput) quantity

/-- Modelled from the spec: result of `TokenStore.issueBatch` (§4.1);
the backend endpoint is not in the source tree. -/
inductive IssueResult where
  | invalidAssignment : IssueResult
  | invalidQuantity : IssueResult
  | issued (toks : List String) : IssueResult
deriving DecidableEq, Repr

/-- Modelled from the spec: `issueBatch` fails with `InvalidAssignment`
when no CourseAssignment links the pair, with `InvalidQuantity` when
quantity ∉ [1,500], and otherwise generates `quantity` token strings
(`gen` abstracts the cryptographically random generator). -/
def issueBatch (assignments : List (Nat × String)) (lecturerId : Nat)
    (course : String) (quantity : Int) (gen : Nat → String) : IssueResult :=
  if (lecturerId, course) ∈ assignments then
    if quantity < 1 ∨ 500 < quantity then IssueResult.invalidQuantity
    else IssueResult.issued ((List.range quantity.toNat).map gen)
  else IssueResult.invalidAssignment

/-- C5: a batch request with quantity outside [1,500] yields
`InvalidQuantity` and no tokens (backend modelled from the spec), and
the admin client halts locally with the exact quantity message, never
reaching the token-generation endpoint. -/
theorem c5_invalid_quantity_rejected
    (assignments : List (Nat × String)) (lect : Nat) (course : String)
    (q : Int) (gen : Nat → String)
    (authTok courseInput lecturerSel : String)
    (hq : q < 1 ∨ 500 < q) :
    (∀ toks, issueBatch assignments lect course q gen ≠
      IssueResult.issued toks) ∧
    ((lect, course) ∈ assignments →
      issueBatch assignments lect course q gen =
        IssueResult.invalidQuantity) ∧
    (∀ l c qq, handleGenerateTokensAction authTok courseInput lecturerSel
      q ≠ GenAction.callEndpoint l c qq) ∧
    (authTok ≠ "" → jsTrim courseInput ≠ "" → lecturerSel ≠ "" →
      handleGenerateTokensAction authTok courseInput lecturerSel q =
        GenAction.localError "Quantity must be between 1 and 500.") := by
  refine ⟨?_, ?_, ?_, ?_⟩
  · intro toks hc
    unfold issueBatch at hc
    by_cases ha : (lect, course) ∈ assignments
    · rw [if_pos ha, if_pos hq] at hc
      cases hc
    · rw [if_neg ha] at hc
      cases hc
  · intro ha
    unfold issueBatch
    rw [if_pos ha, if_pos hq]
  · intro l c qq hc
    unfold handleGenerateTokensAction at hc
    by_cases h1 : authTok = ""
    · rw [if_pos h1] at hc; cases hc
    · rw [if_neg h1] at hc
      by_cases h2 : jsTrim courseInput = "" ∨ lecturerSel = ""
      · rw [if_pos h2] at hc; cases hc
      · rw [if_neg h2, if_pos hq] at hc; cases hc
  · intro h1 h2 h3
    unfold handleGenerateTokensAction
    rw [if_neg h1, if_neg (by simp [h2, h3]), if_pos hq]

theorem c5_invalid_quantity_rejected_witness :
    ((501 : Int) < 1 ∨ 500 < (501 : Int)) ∧
    ((∀ toks, issueBatch [(7, "CSC401")] 7 "CSC401" 501 (fun _ => "tk") ≠
        IssueResult.issued toks) ∧
      ((7, "CSC401") ∈ [(7, "CSC401")] →
        issueBatch [(7, "CSC401")] 7 "CSC401" 501 (fun _ => "tk") =
          IssueResult.invalidQuantity) ∧
      (∀ l c qq, handleGenerateTokensAction "auth" "CSC401" "7" 501 ≠
        GenAction.callEndpoint l c qq) ∧
      (("auth" : String) ≠ "" → jsTrim "CSC401" ≠ "" →
        ("7" : String) ≠ "" →
        handleGenerateTokensAction "auth" "CSC401" "7" 501 =
          GenAction.localError "Quantity must be between 1 and 500.")) :=
  ⟨by decide,
    c5_invalid_quantity_rejected [(7, "CSC401")] 7 "CSC401" 501
      (fun _ => "tk") "auth" "CSC401" "7" (by decide)⟩

/-! ## Toxicity error abstraction (handleSubmit catch block) -/

/-- The alternatives of the toxicity regex in ChatbotFeedback.tsx line
284: `/toxic|toxicity|unprofessional|professional|rephrase|respectful|abusive|disrespectful|profanity/i`. -/
def TOXICITY_PATTERNS : List String :=
  ["toxic", "toxicity", "unprofessional", "professional", "rephrase",
   "respectful", "abusive", "disrespectful", "profanity"]

/-- Whether `pat` occurs as a contiguous sublist of `hay`. -/
def listInfix (pat : List Char) : List Char → Bool
  | [] => pat.isEmpty
  | h :: t => pat.isPrefixOf (h :: t) || listInfix pat t

/-- Case-insensitive substring test, the shallow embedding of
`/pat/i.test(message)` for a literal lower-case pattern. -/
def containsPat (message pat : String) : Bool :=
  listInfix pat.toList (message.toList.map Char.toLower)

/-- Whether the backend error message matches the toxicity regex. -/
def toxicityPatternMatch (message : String) : Bool :=
  TOXICITY_PATTERNS.any (fun p => containsPat message p)

/-- The fixed generic copy shown for toxicity-related failures. -/
def GENERIC_TOXICITY_MESSAGE : String :=
  "We could not submit this yet. Please rephrase a few words to keep feedback respectful and focused on teaching clarity, pace, or materials. Your token remains valid."

/-- `/already submitted feedback for this lecture session/i`. -/
def alreadySubmittedMatch (message : String) : Bool :=
  containsPat message "already submitted feedback for this lecture session"

/-- `/invalid or already used feedback token|invalid feedback token/i`. -/
def invalidTokenMatch (message : String) : Bool :=
  containsPat message "invalid or already used feedback token" ||
    containsPat message "invalid feedback token"

/-- `/invalid token|insufficient permissions|not authenticated|401/i`. -/
def loginRequiredMatch (message : String) : Bool :=
  containsPat message "invalid token" ||
    containsPat message "insufficient permissions" ||
    containsPat message "not authenticated" || containsPat message "401"

/-- The error-message mapping of the `catch` block of `handleSubmit`
(ChatbotFeedback.tsx lines 281-299): the string displayed to the end
user for a backend error message. -/
def displaySubmitError (message : String) : String :=
  if toxicityPatternMatch message = true then GENERIC_TOXICITY_MESSAGE
  else if alreadySubmittedMatch message = true then
    "You already submitted feedback for this lecture session."
  else if invalidTokenMatch message = true then
    "This token is invalid or already used. Please request a fresh token."
  else if loginRequiredMatch message = true then
    "Please login as a student to submit feedback."
  else message

/-- C6: whenever the backend error message matches the toxicity pattern,
the user sees exactly the fixed generic respectful-language prompt, so
any two toxicity-related classifier rationales produce the same display
and the rationale text never leaks through. -/
theorem c6_toxicity_rationale_not_leaked (m1 m2 : String)
    (h1 : toxicityPatternMatch m1 = true)
    (h2 : toxicityPatternMatch m2 = true) :
    displaySubmitError m1 = GENERIC_TOXICITY_MESSAGE ∧
    displaySubmitError m1 = displaySubmitError m2 := by
  have e1 : displaySubmitError m1 = GENERIC_TOXICITY_MESSAGE := by
    unfold displaySubmitError
    rw [if_pos h1]
  have e2 : displaySubmitError m2 = GENERIC_TOXICITY_MESSAGE := by
    unfold displaySubmitError
    rw [if_pos h2]
  exact ⟨e1, e1.trans e2.symm⟩

theorem c6_toxicity_rationale_not_leaked_witness :
    (toxicityPatternMatch
        "Toxicity classifier: slur detected in clause 2 (score 0.97)" =
      true ∧
      toxicityPatternMatch "Comment is unprofessional: personal attack" =
        true) ∧
    (displaySubmitError
        "Toxicity classifier: slur detected in clause 2 (score 0.97)" =
      GENERIC_TOXICITY_MESSAGE ∧
      displaySubmitError
        "Toxicity classifier: slur detected in clause 2 (score 0.97)" =
      displaySubmitError "Comment is unprofessional: personal attack") :=
  ⟨⟨by decide, by decide⟩,
    c6_toxicity_rationale_not_leaked
      "Toxicity classifier: slur detected in clause 2 (score 0.97)"
      "Comment is unprofessional: personal attack" (by decide) (by decide)⟩

/-! ## Lecturer trend chart (unnamed part_000) and insight delta -/

/-- `clampRating` of the older lecturer dashboard (part_000 line 36). -/
def clampRating (v : ℚ) : ℚ := min 5 (max 1 v)

/-- `trendDirection` of the older lecturer dashboard (part_000 lines
103-106): "-" when `avg_rating` is null or 0, otherwise "Up" iff the
current average is at least 3.5. -/
def trendDirection (avgOpt : Option ℚ) : String :=
  match avgOpt with
  | none => "-"
  | some v => if v = 0 then "-" else if 35/10 ≤ v then "Up" else "Down"

/-- `trendData` of the older lecturer dashboard (part_000 lines
108-117): the two points [previous, current] of the trend chart,
where previous is clampRating(current + delta) with delta = -0.4 when
the direction is "Up" and 0.4 otherwise. -/
def trendData (avgOpt : Option ℚ) : List ℚ :=
  let current := avgOpt.getD 0
  if current = 0 then [0, 0]
  else
    let delta : ℚ := if trendDirection avgOpt = "Up" then -(4/10) else 4/10
    [clampRating (current + delta), current]

/-- Modelled from the spec: average rating over a list of accepted
feedback ratings, `none` when the list is empty (§4.5); the
AnalyticsAggregator backend is not in the source tree. -/
def avgRating (rs : List ℚ) : Option ℚ :=
  if rs.isEmpty then none else some (rs.sum / (rs.length : ℚ))

/-- Modelled from the spec: `insightDelta = currentAvg − previousAvg`,
null if the previous semester has zero feedback (§4.5). -/
def insightDelta (current previous : List ℚ) : Option ℚ :=
  if previous.isEmpty then none
  else some ((avgRating current).getD 0 - (avgRating previous).getD 0)

/-- C2 counterexample: with current average 4 the older lecturer
dashboard chart (part_000 `trendData`) displays 3.6 = clampRating(4 −
0.4) as the previous point, even when the actual previous-semester
feedback is a single 1-star rating (average 1): the displayed previous
value is a synthesized constant offset of the current average, not a
value computed from previous-semester feedback. -/
theorem c2_trend_previous_synthesized_counterexample :
    trendData (some 4) = [18/5, 4] ∧
    avgRating [1] = some 1 ∧ (18/5 : ℚ) ≠ 1 := by
  refine ⟨?_, ?_, by norm_num⟩
  · norm_num [trendData, trendDirection, clampRating]
  · norm_num [avgRating]

/-- C2 (amended): the spec-modelled `insightDelta` is null exactly when
the previous semester has zero feedback, and otherwise equals the
current-semester average minus the previous-semester average (exactly,
hence within 1e-6); however the previous point displayed by the
part_000 trend chart is synthesized as clampRating(current ∓ 0.4) from
the current average alone. -/
theorem c2_insight_delta_null_iff_no_previous
    (current previous : List ℚ) (c cp pp : ℚ)
    (hcp : avgRating current = some cp)
    (hpp : avgRating previous = some pp) (hc : c ≠ 0) :
    (∀ prev2 : List ℚ, (insightDelta current prev2 = none ↔ prev2 = [])) ∧
    (∃ d, insightDelta current previous = some d ∧ d = cp - pp ∧
      |d - (cp - pp)| ≤ 1/1000000) ∧
    trendData (some c) =
      [clampRating (c + (if 35/10 ≤ c then -(4/10) else 4/10)), c] := by
  refine ⟨?_, ?_, ?_⟩
  · intro prev2
    unfold insightDelta
    by_cases hp : prev2.isEmpty
    · rw [if_pos hp]
      simp [List.isEmpty_iff] at hp
      simp [hp]
    · rw [if_neg hp]
      simp [List.isEmpty_iff] at hp
      simp [hp]
  · have hprev : ¬ previous.isEmpty = true := by
      intro hp
      rw [List.isEmpty_iff] at hp
      rw [hp] at hpp
      simp [avgRating] at hpp
    refine ⟨cp - pp, ?_, rfl, by simp⟩
    unfold insightDelta
    rw [if_neg hprev, hcp, hpp]
    rfl
  · have hdir : trendDirection (some c) =
        if (35 : ℚ)/10 ≤ c then "Up" else "Down" := by
      show (if c = 0 then "-"
        else if (35 : ℚ)/10 ≤ c then "Up" else "Down") = _
      rw [if_neg hc]
    unfold trendData
    simp only [Option.getD_some, hdir]
    rw [if_neg hc]
    by_cases hup : (35 : ℚ)/10 ≤ c
    · rw [if_pos hup, if_pos hup, if_pos rfl]
    · rw [if_neg hup, if_neg hup,
        if_neg (by decide : ¬ ("Down" : String) = "Up")]

theorem c2_insight_delta_null_iff_no_previous_witness :
    (avgRating [4] = some 4 ∧ avgRating [3] = some 3 ∧ (4 : ℚ) ≠ 0) ∧
    ((∀ prev2 : List ℚ,
        (insightDelta [4] prev2 = none ↔ prev2 = [])) ∧
      (∃ d, insightDelta [4] [3] = some d ∧ d = 4 - 3 ∧
        |d - ((4 : ℚ) - 3)| ≤ 1/1000000) ∧
      trendData (some 4) =
        [clampRating (4 + (if (35 : ℚ)/10 ≤ 4 then -(4/10) else 4/10)),
          4]) :=
  ⟨⟨by simp [avgRating], by simp [avgRating], by decide⟩,
    c2_insight_delta_null_iff_no_previous [4] [3] 4 4 3
      (by simp [avgRating]) (by simp [avgRating]) (by decide)⟩

/-! ## Admin leaderboard ordering (spec-modelled; entry shape from
part_005 `LeaderboardEntry`) -/

/-- The data of one leaderboard row that determines its order: lecturer
id, average rating, feedback count (part_005 lines 39-45). -/
structure LeaderStat where
  lecturerId : Nat
  avgRating : ℚ
  totalFeedbacks : Nat
deriving DecidableEq, Repr

/-- Modelled from the spec: the leaderboard comparator — avgRating
descending, ties broken by totalFeedbacks descending, then lecturer id
ascending (§4.5); the analytics backend is not in the source tree. -/
def leaderLE (a b : LeaderStat) : Prop :=
  b.avgRating < a.avgRating ∨
    (a.avgRating = b.avgRating ∧
      (b.totalFeedbacks < a.totalFeedbacks ∨
        (a.totalFeedbacks = b.totalFeedbacks ∧
          a.lecturerId ≤ b.lecturerId)))

instance : DecidableRel leaderLE := fun a b => by
  unfold leaderLE
  exact inferInstance

instance : IsTotal LeaderStat leaderLE where
  total a b := by
    unfold leaderLE
    rcases lt_trichotomy a.avgRating b.avgRating with h | h | h
    · right; left; exact h
    · rcases Nat.lt_trichotomy a.totalFeedbacks b.totalFeedbacks with
        h2 | h2 | h2
      · right; right; exact ⟨h.symm, Or.inl h2⟩
      · rcases Nat.le_total a.lecturerId b.lecturerId with h3 | h3
        · left; right; exact ⟨h, Or.inr ⟨h2, h3⟩⟩
        · right; right; exact ⟨h.symm, Or.inr ⟨h2.symm, h3⟩⟩
      · left; right; exact ⟨h, Or.inl h2⟩
    · left; left; exact h

instance : IsTrans LeaderStat leaderLE where
  trans a b c hab hbc := by
    unfold leaderLE at hab hbc ⊢
    rcases hab with h1 | ⟨e1, h1⟩ <;> rcases hbc with h2 | ⟨e2, h2⟩
    · left; exact lt_trans h2 h1
    · left; rw [← e2]; exact h1
    · left; rw [e1]; exact h2
    · right
      refine ⟨e1.trans e2, ?_⟩
      rcases h1 with h1 | ⟨f1, h1⟩ <;> rcases h2 with h2 | ⟨f2, h2⟩
      · left; exact Nat.lt_trans h2 h1
      · left; rw [← f2]; exact h1
      · left; rw [f1]; exact h2
      · right; exact ⟨f1.trans f2, Nat.le_trans h1 h2⟩

instance : IsAntisymm LeaderStat leaderLE where
  antisymm a b hab hba := by
    unfold leaderLE at hab hba
    obtain ⟨ia, ra, ta⟩ := a
    obtain ⟨ib, rb, tb⟩ := b
    simp only at hab hba ⊢
    rcases hab with h1 | ⟨e1, h1⟩ <;> rcases hba with h2 | ⟨e2, h2⟩
    · exact absurd h1 (not_lt.mpr (le_of_lt h2))
    · exact absurd h1 (not_lt.mpr e2.ge)
    · exact absurd h2 (not_lt.mpr e1.ge)
    · rcases h1 with h1 | ⟨f1, h1⟩ <;> rcases h2 with h2 | ⟨f2, h2⟩
      · exact absurd h1 (Nat.not_lt.mpr (Nat.le_of_lt h2))
      · exact absurd h1 (Nat.not_lt.mpr (Nat.le_of_eq f2.symm))
      · exact absurd h2 (Nat.not_lt.mpr (Nat.le_of_eq f1.symm))
      · simp only [LeaderStat.mk.injEq]
        exact ⟨Nat.le_antisymm h1 h2, e1, f1⟩

/-- Modelled from the spec: the leaderboard ordering pass — a sort of
the per-lecturer statistics by `leaderLE`. -/
def sortLeaders (l : List LeaderStat) : List LeaderStat :=
  List.insertionSort leaderLE l

/-- C7: the spec-modelled leaderboard is sorted by avgRating descending
with ties broken by totalFeedbacks descending then lecturer id
ascending, contains exactly the underlying rows, and is deterministic:
two runs over identical underlying data (any two permutations of the
same rows) produce the byte-identical order. -/
theorem c7_leaderboard_deterministic_order (l l2 : List LeaderStat)
    (hperm : l.Perm l2) :
    List.Sorted leaderLE (sortLeaders l) ∧
    (sortLeaders l).Perm l ∧
    sortLeaders l = sortLeaders l2 := by
  refine ⟨List.sorted_insertionSort leaderLE l,
    List.perm_insertionSort leaderLE l, ?_⟩
  have p1 : (sortLeaders l).Perm (sortLeaders l2) :=
    ((List.perm_insertionSort leaderLE l).trans hperm).trans
      (List.perm_insertionSort leaderLE l2).symm
  exact List.eq_of_perm_of_sorted p1
    (List.sorted_insertionSort leaderLE l)
    (List.sorted_insertionSort leaderLE l2)

theorem c7_leaderboard_deterministic_order_witness :
    ([⟨1, 4, 10⟩, ⟨2, 5, 3⟩] : List LeaderStat).Perm
      [⟨2, 5, 3⟩, ⟨1, 4, 10⟩] ∧
    (List.Sorted leaderLE
        (sortLeaders [⟨1, 4, 10⟩, ⟨2, 5, 3⟩]) ∧
      (sortLeaders [⟨1, 4, 10⟩, ⟨2, 5, 3⟩]).Perm
        [⟨1, 4, 10⟩, ⟨2, 5, 3⟩] ∧
      sortLeaders [⟨1, 4, 10⟩, ⟨2, 5, 3⟩] =
        sortLeaders [⟨2, 5, 3⟩, ⟨1, 4, 10⟩]) :=
  ⟨List.Perm.swap _ _ _,
    c7_leaderboard_deterministic_order [⟨1, 4, 10⟩, ⟨2, 5, 3⟩]
      [⟨2, 5, 3⟩, ⟨1, 4, 10⟩] (List.Perm.swap _ _ _)⟩

/-! ## Feedback form rating state (ChatbotFeedback.tsx) -/

/-- `STAR_RANGE` of ChatbotFeedback.tsx line 9: the only values a star
click can assign to the rating state. -/
def STAR_RANGE : List ℚ := [1, 2, 3, 4, 5]

/-- The draft-restore guard of ChatbotFeedback.tsx lines 174-176:
`if (parsed.rating && parsed.rating >= 1 && parsed.rating <= 5)`
applies the stored rating (a JSON number, modelled as a rational) only
when it is truthy and within [1,5]; otherwise the rating state is left
unchanged. -/
def restoreDraftRating (stored : Option ℚ) (current : ℚ) : ℚ :=
  match stored with
  | none => current
  | some r => if r ≠ 0 ∧ 1 ≤ r ∧ r ≤ 5 then r else current

/-- The events that assign the rating state: a star click
(`handleRatingSelect` from the `STAR_RANGE.map` buttons) or the
draft-restore effect. -/
inductive RatingEv where
  | selectStar (i : Fin 5) : RatingEv
  | restoreDraft (stored : Option ℚ) : RatingEv

/-- One rating-state transition. -/
def ratingStep (r : ℚ) : RatingEv → ℚ
  | RatingEv.selectStar i => STAR_RANGE.get (Fin.cast rfl i)
  | RatingEv.restoreDraft stored => restoreDraftRating stored r

/-- The rating state after a sequence of events from the initial
`useState(0)`. -/
def ratingRun (r : ℚ) : List RatingEv → ℚ
  | [] => r
  | e :: es => ratingRun (ratingStep r e) es

/-- The amended invariant: the rating is 0 (unselected) or lies in
[1,5]. -/
def ratingInv (r : ℚ) : Prop := r = 0 ∨ (1 ≤ r ∧ r ≤ 5)

theorem ratingInv_star (i : Fin 5) :
    1 ≤ STAR_RANGE.get (Fin.cast rfl i) ∧
      STAR_RANGE.get (Fin.cast rfl i) ≤ 5 := by
  fin_cases i <;> constructor <;> decide

theorem ratingInv_step (r : ℚ) (e : RatingEv) (h : ratingInv r) :
    ratingInv (ratingStep r e) := by
  cases e with
  | selectStar i => exact Or.inr (ratingInv_star i)
  | restoreDraft stored =>
      cases stored with
      | none => exact h
      | some q =>
          show ratingInv (if q ≠ 0 ∧ 1 ≤ q ∧ q ≤ 5 then q else r)
          by_cases hq : q ≠ 0 ∧ 1 ≤ q ∧ q ≤ 5
          · rw [if_pos hq]
            exact Or.inr ⟨hq.2.1, hq.2.2⟩
          · rw [if_neg hq]
            exact h

/-- C10 counterexample: a stored draft rating of 4.5 is truthy, at
least 1 and at most 5, so the restore guard applies it as-is and the
rating state becomes 4.5 — neither 0 nor an integer in [1,5].  The
guard checks the range but not integrality, refuting the claimed
"integer in [1,5]" invariant over restorable drafts. -/
theorem c10_rating_integer_invariant_counterexample :
    restoreDraftRating (some (9/2)) 0 = 9/2 ∧
    ratingRun 0 [RatingEv.restoreDraft (some (9/2))] = 9/2 ∧
    ¬ ((9/2 : ℚ) = 0 ∨ ∃ n : ℤ, (9/2 : ℚ) = (n : ℚ) ∧ 1 ≤ n ∧ n ≤ 5) := by
  have hg : (9/2 : ℚ) ≠ 0 ∧ 1 ≤ (9/2 : ℚ) ∧ (9/2 : ℚ) ≤ 5 := by
    norm_num
  refine ⟨?_, ?_, ?_⟩
  · show (if (9/2 : ℚ) ≠ 0 ∧ 1 ≤ (9/2 : ℚ) ∧ (9/2 : ℚ) ≤ 5
      then (9/2 : ℚ) else 0) = 9/2
    rw [if_pos hg]
  · show restoreDraftRating (some (9/2)) 0 = 9/2
    show (if (9/2 : ℚ) ≠ 0 ∧ 1 ≤ (9/2 : ℚ) ∧ (9/2 : ℚ) ≤ 5
      then (9/2 : ℚ) else 0) = 9/2
    rw [if_pos hg]
  · rintro (h | ⟨n, hn, h1, h5⟩)
    · norm_num at h
    · have : ((9 : ℚ)/2).den = 1 := by rw [hn]; exact Rat.den_intCast n
      norm_num at this

/-- C10 (amended): every rating state reachable from 0 through star
clicks and guarded draft restores is 0 or a value in [1,5] (star clicks
yield the integers 1..5, but the restore guard checks only the range,
not integrality), and a restore whose stored rating fails the
truthy-and-in-range guard leaves the state unchanged. -/
theorem c10_rating_range_invariant (evs : List RatingEv)
    (stored r : ℚ) (hbad : ¬ (stored ≠ 0 ∧ 1 ≤ stored ∧ stored ≤ 5)) :
    ratingInv (ratingRun 0 evs) ∧
    restoreDraftRating (some stored) r = r := by
  constructor
  · have hrun : ∀ (l : List RatingEv) (q : ℚ), ratingInv q →
        ratingInv (ratingRun q l) := by
      intro l
      induction l with
      | nil => intro q hq; exact hq
      | cons e es ih => intro q hq; exact ih _ (ratingInv_step q e hq)
    exact hrun evs 0 (Or.inl rfl)
  · show (if stored ≠ 0 ∧ 1 ≤ stored ∧ stored ≤ 5
      then stored else r) = r
    rw [if_neg hbad]

theorem c10_rating_range_invariant_witness :
    ¬ ((7 : ℚ) ≠ 0 ∧ 1 ≤ (7 : ℚ) ∧ (7 : ℚ) ≤ 5) ∧
    (ratingInv (ratingRun 0
        [RatingEv.selectStar 2, RatingEv.restoreDraft (some 7)]) ∧
      restoreDraftRating (some 7) 3 = 3) :=
  ⟨by decide,
    c10_rating_range_invariant
      [RatingEv.selectStar 2, RatingEv.restoreDraft (some 7)] 7 3
      (by decide)⟩

/-! ## Base64 and JSON primitives (frontend/utils/auth.ts,
frontend/middleware.ts) -/

/-- The 6-bit value of a standard base64 alphabet character. -/
def b64Val (c : Char) : Option Nat :=
  if 'A' ≤ c ∧ c ≤ 'Z' then some (c.toNat - 65)
  else if 'a' ≤ c ∧ c ≤ 'z' then some (c.toNat - 97 + 26)
  else if '0' ≤ c ∧ c ≤ '9' then some (c.toNat - 48 + 52)
  else if c = '+' then some 62
  else if c = '/' then some 63
  else none

/-- The 6-bit values of every character, or failure on the first
character outside the alphabet. -/
def b64Vals : List Char → Option (List Nat)
  | [] => some []
  | c :: cs =>
      match b64Val c, b64Vals cs with
      | some v, some vs => some (v :: vs)
      | _, _ => none

/-- Reassemble 6-bit groups into bytes: each full group of four gives
three bytes; a trailing group of three gives two, of two gives one
(overflow bits discarded), of one is an error. -/
def b64Bytes : List Nat → Option (List Nat)
  | [] => some []
  | [_] => none
  | [a, b] => some [a * 4 + b / 16]
  | [a, b, c] => some [a * 4 + b / 16, (b % 16) * 16 + c / 4]
  | a :: b :: c :: d :: rest =>
      match b64Bytes rest with
      | some bs =>
          some ((a * 4 + b / 16) :: ((b % 16) * 16 + c / 4) ::
            ((c % 4) * 64 + d) :: bs)
      | none => none

/-- ASCII whitespace stripped by forgiving-base64. -/
def isB64Ws (c : Char) : Bool :=
  c == ' ' || c == '\t' || c == '\n' || c == '\x0C' || c == '\r'

/-- Strip up to two trailing '=' characters. -/
def dropTrailingEq (l : List Char) : List Char :=
  match l.reverse with
  | '=' :: '=' :: rest => rest.reverse
  | '=' :: rest => rest.reverse
  | _ => l

/-- The WHATWG forgiving-base64 decode implemented by `atob`: strip
ASCII whitespace, strip up to two trailing '=' when the length is a
multiple of four, fail when the remaining length is 1 mod 4 or any
character is outside the alphabet, and emit the decoded bytes
(trailing bits discarded); `none` models the thrown DOMException. -/
def atobDecode (s : String) : Option (List Nat) :=
  let cs0 := s.toList.filter (fun c => !(isB64Ws c))
  let cs := if cs0.length % 4 == 0 then dropTrailingEq cs0 else cs0
  if cs.length % 4 == 1 then none
  else
    match b64Vals cs with
    | some vals => b64Bytes vals
    | none => none

/-- Decoded bytes as a JS binary string (one char per byte). -/
def bytesToString (bs : List Nat) : String :=
  String.mk (bs.map Char.ofNat)

/-- JS `token.split(".")` over the character list. -/
def splitDot : List Char → List (List Char)
  | [] => [[]]
  | c :: cs =>
      let r := splitDot cs
      if c = '.' then [] :: r
      else
        match r with
        | h :: t => (c :: h) :: t
        | [] => [[c]]

/-- `decodeBase64Url` of frontend/utils/auth.ts: null for the empty
segment, translate the URL alphabet to the standard one, pad with '='
to a multiple of four, then `atob` (null when it throws). -/
def decodeBase64Url (segment : String) : Option String :=
  if segment = "" then none
  else
    let normalized := segment.toList.map
      (fun c => if c = '-' then '+' else if c = '_' then '/' else c)
    let padded := normalized ++
      List.replicate ((4 - normalized.length % 4) % 4) '='
    match atobDecode (String.mk padded) with
    | some bs => some (bytesToString bs)
    | none => none

/-- A JSON value as produced by `JSON.parse` (numbers kept exact as
rationals). -/
inductive JVal where
  | jnull : JVal
  | jbool (b : Bool) : JVal
  | jnum (q : ℚ) : JVal
  | jstr (s : String) : JVal
  | jarr (xs : List JVal) : JVal
  | jobj (fields : List (String × JVal)) : JVal

/-- JSON insignificant whitespace. -/
def jsonWs (c : Char) : Bool :=
  c == ' ' || c == '\t' || c == '\n' || c == '\r'

/-- Drop leading JSON whitespace. -/
def skipWs : List Char → List Char
  | [] => []
  | c :: cs => if jsonWs c then skipWs cs else c :: cs

/-- Hexadecimal digit value. -/
def hexVal (c : Char) : Option Nat :=
  if '0' ≤ c ∧ c ≤ '9' then some (c.toNat - 48)
  else if 'a' ≤ c ∧ c ≤ 'f' then some (c.toNat - 97 + 10)
  else if 'A' ≤ c ∧ c ≤ 'F' then some (c.toNat - 65 + 10)
  else none

/-- Body of a JSON string after the opening quote: characters up to
the closing quote, with the escape sequences of the JSON grammar;
unescaped control characters are an error. -/
def parseStrBody : Nat → List Char → List Char →
    Option (String × List Char)
  | 0, _, _ => none
  | Nat.succ fuel, acc, cs =>
      match cs with
      | [] => none
      | c :: rest =>
          if c = '"' then some (String.mk acc.reverse, rest)
          else if c = '\\' then
            match rest with
            | [] => none
            | e :: rest2 =>
                if e = '"' then parseStrBody fuel ('"' :: acc) rest2
                else if e = '\\' then parseStrBody fuel ('\\' :: acc) rest2
                else if e = '/' then parseStrBody fuel ('/' :: acc) rest2
                else if e = 'b' then parseStrBody fuel ('\x08' :: acc) rest2
                else if e = 'f' then parseStrBody fuel ('\x0C' :: acc) rest2
                else if e = 'n' then parseStrBody fuel ('\n' :: acc) rest2
                else if e = 'r' then parseStrBody fuel ('\r' :: acc) rest2
                else if e = 't' then parseStrBody fuel ('\t' :: acc) rest2
                else if e = 'u' then
                  match rest2 with
                  | h1 :: h2 :: h3 :: h4 :: rest3 =>
                      match hexVal h1, hexVal h2, hexVal h3, hexVal h4 with
                      | some a, some b, some c2, some d =>
                          parseStrBody fuel
                            (Char.ofNat (((a * 16 + b) * 16 + c2) * 16 + d)
                              :: acc) rest3
                      | _, _, _, _ => none
                  | _ => none
                else none
          else if c.toNat < 32 then none
          else parseStrBody fuel (c :: acc) rest

/-- Digit run as a natural number. -/
def digitsVal (ds : List Char) : Nat :=
  ds.foldl (fun n c => n * 10 + (c.toNat - 48)) 0

/-- A JSON number per the strict JSON grammar (optional minus, integer
part without leading zeros, optional fraction, optional exponent),
evaluated exactly as a rational. -/
def parseNum (cs : List Char) : Option (ℚ × List Char) :=
  let signed : Bool × List Char :=
    match cs with
    | '-' :: rest => (true, rest)
    | _ => (false, cs)
  let neg := signed.fst
  let cs1 := signed.snd
  match cs1 with
  | [] => none
  | c :: _ =>
      if !c.isDigit then none
      else
        let intDigits := cs1.takeWhile Char.isDigit
        let cs2 := cs1.dropWhile Char.isDigit
        if 1 < intDigits.length ∧ intDigits.head? = some '0' then none
        else
          let fracPart : List Char × List Char × Bool :=
            match cs2 with
            | '.' :: rest =>
                (rest.takeWhile Char.isDigit, rest.dropWhile Char.isDigit,
                  !(rest.takeWhile Char.isDigit).isEmpty)
            | _ => ([], cs2, true)
          let fracDigits := fracPart.fst
          let cs3 := fracPart.snd.fst
          if !fracPart.snd.snd then none
          else
            let expPart : Int × List Char × List Char × Bool :=
              match cs3 with
              | e :: rest =>
                  if e = 'e' ∨ e = 'E' then
                    match rest with
                    | '+' :: r2 =>
                        (1, r2.takeWhile Char.isDigit,
                          r2.dropWhile Char.isDigit,
                          !(r2.takeWhile Char.isDigit).isEmpty)
                    | '-' :: r2 =>
                        (-1, r2.takeWhile Char.isDigit,
                          r2.dropWhile Char.isDigit,
                          !(r2.takeWhile Char.isDigit).isEmpty)
                    | r2 =>
                        (1, r2.takeWhile Char.isDigit,
                          r2.dropWhile Char.isDigit,
                          !(r2.takeWhile Char.isDigit).isEmpty)
                  else (1, [], cs3, true)
              | [] => (1, [], cs3, true)
            if !expPart.snd.snd.snd then none
            else
              let mantissa : ℚ := (digitsVal (intDigits ++ fracDigits) : ℚ)
              let e : Int := expPart.fst * (digitsVal expPart.snd.fst : Int) -
                (fracDigits.length : Int)
              let mag : ℚ :=
                if 0 ≤ e then mantissa * (10 : ℚ) ^ e.toNat
                else mantissa / (10 : ℚ) ^ (-e).toNat
              some (if neg then -mag else mag, expPart.snd.snd.fst)

/-- The tasks of the fueled JSON parsing loop: a value, the items of an
array, or the members of an object. -/
inductive JsonK where
  | val (cs : List Char) : JsonK
  | arr (cs : List Char) (acc : List JVal) : JsonK
  | obj (cs : List Char) (acc : List (String × JVal)) : JsonK

/-- The recursive JSON reader (strict JSON grammar, fueled). -/
def runJson : Nat → JsonK → Option (JVal × List Char)
  | 0, _ => none
  | Nat.succ fuel, JsonK.val cs =>
      match skipWs cs with
      | [] => none
      | c :: rest =>
          if c = '\x7b' then
            match skipWs rest with
            | '\x7d' :: rest2 => some (JVal.jobj [], rest2)
            | rest2 => runJson fuel (JsonK.obj rest2 [])
          else if c = '[' then
            match skipWs rest with
            | ']' :: rest2 => some (JVal.jarr [], rest2)
            | rest2 => runJson fuel (JsonK.arr rest2 [])
          else if c = '"' then
            match parseStrBody (rest.length + 1) [] rest with
            | some (s, rest2) => some (JVal.jstr s, rest2)
            | none => none
          else if c = 't' then
            match rest with
            | 'r' :: 'u' :: 'e' :: rest2 => some (JVal.jbool true, rest2)
            | _ => none
          else if c = 'f' then
            match rest with
            | 'a' :: 'l' :: 's' :: 'e' :: rest2 =>
                some (JVal.jbool false, rest2)
            | _ => none
          else if c = 'n' then
            match rest with
            | 'u' :: 'l' :: 'l' :: rest2 => some (JVal.jnull, rest2)
            | _ => none
          else
            match parseNum (c :: rest) with
            | some (q, rest2) => some (JVal.jnum q, rest2)
            | none => none
  | Nat.succ fuel, JsonK.arr cs acc =>
      match runJson fuel (JsonK.val cs) with
      | none => none
      | some (v, rest) =>
          match skipWs rest with
          | ',' :: rest2 => runJson fuel (JsonK.arr rest2 (v :: acc))
          | ']' :: rest2 => some (JVal.jarr (v :: acc).reverse, rest2)
          | _ => none
  | Nat.succ fuel, JsonK.obj cs acc =>
      match skipWs cs with
      | '"' :: rest =>
          match parseStrBody (rest.length + 1) [] rest with
          | none => none
          | some (k, rest2) =>
              match skipWs rest2 with
              | ':' :: rest3 =>
                  match runJson fuel (JsonK.val rest3) with
                  | none => none
                  | some (v, rest4) =>
                      match skipWs rest4 with
                      | ',' :: rest5 =>
                          runJson fuel (JsonK.obj rest5 ((k, v) :: acc))
                      | '\x7d' :: rest5 =>
                          some (JVal.jobj ((k, v) :: acc).reverse, rest5)
                      | _ => none
              | _ => none
      | _ => none

/-- `JSON.parse`: parse one value and require only whitespace after it;
`none` models the thrown SyntaxError. -/
def parseJsonTop (s : String) : Option JVal :=
  let cs := s.toList
  match runJson (2 * cs.length + 2) (JsonK.val cs) with
  | some (v, rest) => if (skipWs rest).isEmpty then some v else none
  | none => none

/-- Last-wins field lookup (`payload?.k` for a JSON.parse object, which
keeps the final duplicate key). -/
def jGet (v : JVal) (k : String) : Option JVal :=
  match v with
  | JVal.jobj fields =>
      match (fields.filter (fun f => f.fst == k)).getLast? with
      | some f => some f.snd
      | none => none
  | _ => none

/-- JS truthiness of a JSON value. -/
def jTruthy : JVal → Bool
  | JVal.jnull => false
  | JVal.jbool b => b
  | JVal.jnum q => decide (q ≠ 0)
  | JVal.jstr s => decide (s ≠ "")
  | JVal.jarr _ => true
  | JVal.jobj _ => true

/-- JS `a || b` over optional JSON values (missing and falsy both fall
through). -/
def jsOrRole (a b : Option JVal) : Option JVal :=
  match a with
  | some v => if jTruthy v then some v else b
  | none => b

/-- `payload?.role || payload?.user_role || payload?.type || null`. -/
def pickRawRole (payload : JVal) : Option JVal :=
  jsOrRole (jGet payload "role")
    (jsOrRole (jGet payload "user_role")
      (jsOrRole (jGet payload "type") none))

/-- JS `String.prototype.toUpperCase` (ASCII model). -/
def jsToUpper (s : String) : String :=
  String.mk (s.toList.map Char.toUpper)

/-- `typeof rawRole === "string" ? rawRole.toUpperCase() : null`. -/
def roleFromPayload (payload : JVal) : Option String :=
  match pickRawRole payload with
  | some (JVal.jstr s) => some (jsToUpper s)
  | _ => none

/-- The `if (!payloadRaw) return null` check followed by the
try/catch around `JSON.parse` and the role extraction. -/
def rolePayloadStep (payloadRaw : String) : Option String :=
  if payloadRaw = "" then none
  else
    match parseJsonTop payloadRaw with
    | none => none
    | some payload => roleFromPayload payload

/-- The body of `decodeTokenRole` after `token.split(".")`: null for
fewer than two parts, else decode part 1 (null when empty or invalid),
parse it as JSON (null when it throws) and extract the role. -/
def decodeTokenRoleParts : List (List Char) → Option String
  | [] => none
  | [_] => none
  | _ :: p1 :: _ =>
      match decodeBase64Url (String.mk p1) with
      | none => none
      | some payloadRaw => rolePayloadStep payloadRaw

/-- `decodeTokenRole` of frontend/utils/auth.ts (lines 12-25). -/
def decodeTokenRole (token : String) : Option String :=
  if token = "" then none
  else decodeTokenRoleParts (splitDot token.toList)

theorem decodeTokenRoleParts_shape (ps : List (List Char)) :
    decodeTokenRoleParts ps = none ∨
      ∃ raw, decodeTokenRoleParts ps = some (jsToUpper raw) := by
  match ps with
  | [] => exact Or.inl rfl
  | [_] => exact Or.inl rfl
  | p0 :: p1 :: rest =>
      simp only [decodeTokenRoleParts]
      cases hb : decodeBase64Url (String.mk p1) with
      | none => exact Or.inl rfl
      | some payloadRaw =>
          show rolePayloadStep payloadRaw = none ∨
            ∃ raw, rolePayloadStep payloadRaw = some (jsToUpper raw)
          unfold rolePayloadStep
          by_cases hpe : payloadRaw = ""
          · rw [if_pos hpe]
            exact Or.inl rfl
          · rw [if_neg hpe]
            cases hj : parseJsonTop payloadRaw with
            | none => exact Or.inl rfl
            | some payload =>
                show roleFromPayload payload = none ∨
                  ∃ raw, roleFromPayload payload = some (jsToUpper raw)
                unfold roleFromPayload
                cases hp : pickRawRole payload with
                | none => exact Or.inl rfl
                | some v =>
                    cases v with
                    | jnull => exact Or.inl rfl
                    | jbool b => exact Or.inl rfl
                    | jnum q => exact Or.inl rfl
                    | jstr s => exact Or.inr ⟨s, rfl⟩
                    | jarr xs => exact Or.inl rfl
                    | jobj fields => exact Or.inl rfl

theorem decodeTokenRoleParts_short (ps : List (List Char))
    (h : ps.length < 2) : decodeTokenRoleParts ps = none := by
  match ps with
  | [] => rfl
  | [_] => rfl
  | _ :: _ :: _ =>
      exfalso
      simp only [List.length_cons] at h
      omega

theorem decodeTokenRoleParts_b64_none (p0 p1 : List Char)
    (rest : List (List Char))
    (hb : decodeBase64Url (String.mk p1) = none) :
    decodeTokenRoleParts (p0 :: p1 :: rest) = none := by
  simp only [decodeTokenRoleParts]
  rw [hb]

theorem decodeTokenRoleParts_json_none (p0 p1 : List Char)
    (rest : List (List Char)) (raw : String)
    (hb : decodeBase64Url (String.mk p1) = some raw)
    (hj : parseJsonTop raw = none) :
    decodeTokenRoleParts (p0 :: p1 :: rest) = none := by
  simp only [decodeTokenRoleParts]
  rw [hb]
  show rolePayloadStep raw = none
  unfold rolePayloadStep
  by_cases hr : raw = ""
  · rw [if_pos hr]
  · rw [if_neg hr, hj]

/-- C8: `decodeTokenRole` (frontend/utils/auth.ts) is a total function
that returns null or an upper-cased role string and never throws: an
input with fewer than two dot-separated segments, a payload segment
that is not valid base64url, or a payload that is not valid JSON all
yield null, and any non-null result is the upper-casing of a raw
payload string. -/
theorem c8_decode_token_role_shape (t : String) :
    (decodeTokenRole t = none ∨
      ∃ raw, decodeTokenRole t = some (jsToUpper raw)) ∧
    ((splitDot t.toList).length < 2 → decodeTokenRole t = none) ∧
    (∀ p0 p1 rest, splitDot t.toList = p0 :: p1 :: rest →
      decodeBase64Url (String.mk p1) = none → decodeTokenRole t = none) ∧
    (∀ p0 p1 rest raw, splitDot t.toList = p0 :: p1 :: rest →
      decodeBase64Url (String.mk p1) = some raw →
      parseJsonTop raw = none → decodeTokenRole t = none) := by
  by_cases ht : t = ""
  · subst ht
    refine ⟨Or.inl rfl, fun _ => rfl, fun _ _ _ _ _ => rfl,
      fun _ _ _ _ _ _ _ => rfl⟩
  · unfold decodeTokenRole
    rw [if_neg ht]
    refine ⟨decodeTokenRoleParts_shape _, ?_, ?_, ?_⟩
    · intro hlen
      exact decodeTokenRoleParts_short _ hlen
    · intro p0 p1 rest hsp hb
      rw [hsp]
      exact decodeTokenRoleParts_b64_none p0 p1 rest hb
    · intro p0 p1 rest raw hsp hb hj
      rw [hsp]
      exact decodeTokenRoleParts_json_none p0 p1 rest raw hb hj

theorem c8_decode_token_role_shape_witness :
    ((splitDot ("noperiods").toList).length < 2 ∧
      decodeTokenRole "noperiods" = none) ∧
    (decodeTokenRole "x.eyJyb2xlIjoiYWRtaW4ifQ" = none ∨
      ∃ raw, decodeTokenRole "x.eyJyb2xlIjoiYWRtaW4ifQ" =
        some (jsToUpper raw)) :=
  ⟨⟨by decide, (c8_decode_token_role_shape "noperiods").2.1 (by decide)⟩,
    (c8_decode_token_role_shape "x.eyJyb2xlIjoiYWRtaW4ifQ").1⟩

/-! ## Route middleware (frontend/middleware.ts) -/

/-- The parts of a Next.js request the middleware reads: the three
token cookies, the authorization header, the `token` query parameter
and the pathname. -/
structure MwRequest where
  cookieAccessToken : Option String
  cookieToken : Option String
  cookieJwt : Option String
  authorizationHeader : Option String
  queryToken : Option String
  pathname : String

/-- The middleware verdict: pass through or redirect. -/
inductive MwResponse where
  | next : MwResponse
  | redirect (path : String) : MwResponse
deriving DecidableEq, Repr

/-- JS `a || b` on strings (empty is falsy). -/
def jsOrStr (a b : String) : String := if a = "" then b else a

/-- JS `s.startsWith(p)`. -/
def strStarts (s p : String) : Bool := p.toList.isPrefixOf s.toList

/-- `getTokenFromRequest` of frontend/middleware.ts (lines 8-21):
cookie chain, then a Bearer authorization header, then the `token`
query parameter. -/
def getTokenFromRequest (r : MwRequest) : String :=
  if jsOrStr (r.cookieAccessToken.getD "")
      (jsOrStr (r.cookieToken.getD "") (r.cookieJwt.getD "")) ≠ "" then
    jsOrStr (r.cookieAccessToken.getD "")
      (jsOrStr (r.cookieToken.getD "") (r.cookieJwt.getD ""))
  else
    match r.authorizationHeader with
    | some h =>
        if strStarts h "Bearer " = true then
          jsTrim (String.mk (h.toList.drop 7))
        else r.queryToken.getD ""
    | none => r.queryToken.getD ""

/-- `decodeRoleFromToken` of frontend/middleware.ts (lines 23-39):
split on dots, base64url-normalize and pad part 1, `atob` it,
`JSON.parse` the result and extract the upper-cased role; any throw is
caught to null. -/
def decodeRoleFromToken (token : String) : Option String :=
  match splitDot token.toList with
  | _ :: p1 :: _ =>
      match atobDecode (String.mk
        (p1.map (fun c => if c = '-' then '+'
          else if c = '_' then '/' else c) ++
          List.replicate
            ((4 - (p1.map (fun c => if c = '-' then '+'
              else if c = '_' then '/' else c)).length % 4) % 4) '=')) with
      | none => none
      | some bs =>
          match parseJsonTop (bytesToString bs) with
          | none => none
          | some data => roleFromPayload data
  | _ => none

/-- The role-dependent dispatch of the middleware (the `!role` check
and the path-by-path role rules of lines 55-86). -/
def middlewareRoleBody (r : MwRequest) (role : String) : MwResponse :=
  if role = "" then MwResponse.redirect "/login"
  else if r.pathname = "/dashboard" ∨ r.pathname = "/dashboard/" then
    MwResponse.redirect
      (if role = "ADMIN" then "/dashboard/admin"
       else if role = "LECTURER" then "/dashboard/lecturer"
       else "/dashboard/student")
  else if strStarts r.pathname "/dashboard/admin" = true ∧
      role ≠ "ADMIN" then
    MwResponse.redirect "/dashboard/student"
  else if strStarts r.pathname "/dashboard/lecturer" = true ∧
      role ≠ "LECTURER" then
    MwResponse.redirect "/dashboard/student"
  else if strStarts r.pathname "/dashboard/settings" = true ∧
      role ≠ "ADMIN" then
    MwResponse.redirect "/dashboard/student"
  else if strStarts r.pathname "/dashboard/student" = true ∧
      role ≠ "STUDENT" then
    MwResponse.redirect
      (if role = "ADMIN" then "/dashboard/admin"
       else "/dashboard/lecturer")
  else MwResponse.next

/-- `middleware` of frontend/middleware.ts (lines 43-87). -/
def middleware (r : MwRequest) : MwResponse :=
  if strStarts r.pathname "/dashboard" = true then
    if getTokenFromRequest r = "" then MwResponse.redirect "/login"
    else
      match decodeRoleFromToken (getTokenFromRequest r) with
      | none => MwResponse.redirect "/login"
      | some role => middlewareRoleBody r role
  else MwResponse.next

/-- C9: on any request whose path starts with /dashboard, the
middleware redirects to /login when no auth token is found or its role
cannot be decoded; and a request whose decoded role is not ADMIN never
proceeds to a path under /dashboard/admin — it is redirected. -/
theorem c9_middleware_guards (r : MwRequest)
    (hdash : strStarts r.pathname "/dashboard" = true) :
    ((getTokenFromRequest r = "" ∨
        decodeRoleFromToken (getTokenFromRequest r) = none) →
      middleware r = MwResponse.redirect "/login") ∧
    (∀ role, decodeRoleFromToken (getTokenFromRequest r) = some role →
      role ≠ "ADMIN" → strStarts r.pathname "/dashboard/admin" = true →
      middleware r ≠ MwResponse.next ∧
      ∃ p, middleware r = MwResponse.redirect p) := by
  constructor
  · intro hred
    unfold middleware
    rw [if_pos hdash]
    rcases hred with htok | hrole2
    · rw [if_pos htok]
    · by_cases htok : getTokenFromRequest r = ""
      · rw [if_pos htok]
      · rw [if_neg htok, hrole2]
  · intro role hrole hnadmin hadm
    have hnone : decodeRoleFromToken "" = none := rfl
    have htok : getTokenFromRequest r ≠ "" := by
      intro h0
      rw [h0, hnone] at hrole
      cases hrole
    have hne1 : ¬ (r.pathname = "/dashboard" ∨
        r.pathname = "/dashboard/") := by
      rintro (hp | hp) <;> rw [hp] at hadm <;>
        exact absurd hadm (by decide)
    unfold middleware
    rw [if_pos hdash, if_neg htok, hrole]
    show middlewareRoleBody r role ≠ MwResponse.next ∧
      ∃ p, middlewareRoleBody r role = MwResponse.redirect p
    unfold middlewareRoleBody
    by_cases hre : role = ""
    · rw [if_pos hre]
      exact ⟨fun h => MwResponse.noConfusion h, ⟨"/login", rfl⟩⟩
    · rw [if_neg hre, if_neg hne1, if_pos ⟨hadm, hnadmin⟩]
      exact ⟨fun h => MwResponse.noConfusion h,
        ⟨"/dashboard/student", rfl⟩⟩

theorem c9_middleware_guards_witness :
    (strStarts "/dashboard/admin/panel" "/dashboard" = true ∧
      strStarts "/dashboard" "/dashboard" = true ∧
      decodeRoleFromToken (getTokenFromRequest
        { cookieAccessToken := some "h.eyJyb2xlIjoic3R1ZGVudCJ9"
          cookieToken := none, cookieJwt := none
          authorizationHeader := none, queryToken := none
          pathname := "/dashboard/admin/panel" }) = some "STUDENT" ∧
      getTokenFromRequest
        { cookieAccessToken := none, cookieToken := none
          cookieJwt := none, authorizationHeader := none
          queryToken := none, pathname := "/dashboard" } = "") ∧
    ((middleware
        { cookieAccessToken := some "h.eyJyb2xlIjoic3R1ZGVudCJ9"
          cookieToken := none, cookieJwt := none
          authorizationHeader := none, queryToken := none
          pathname := "/dashboard/admin/panel" } ≠ MwResponse.next ∧
      ∃ p, middleware
        { cookieAccessToken := some "h.eyJyb2xlIjoic3R1ZGVudCJ9"
          cookieToken := none, cookieJwt := none
          authorizationHeader := none, queryToken := none
          pathname := "/dashboard/admin/panel" } =
          MwResponse.redirect p) ∧
      middleware
        { cookieAccessToken := none, cookieToken := none
          cookieJwt := none, authorizationHeader := none
          queryToken := none, pathname := "/dashboard" } =
        MwResponse.redirect "/login") :=
  ⟨⟨by decide, by decide, by decide, by decide⟩,
    (c9_middleware_guards
        { cookieAccessToken := some "h.eyJyb2xlIjoic3R1ZGVudCJ9"
          cookieToken := none, cookieJwt := none
          authorizationHeader := none, queryToken := none
          pathname := "/dashboard/admin/panel" } (by decide)).2
      "STUDENT" (by decide) (by decide) (by decide),
    (c9_middleware_guards
        { cookieAccessToken := none, cookieToken := none
          cookieJwt := none, authorizationHeader := none
          queryToken := none, pathname := "/dashboard" } (by decide)).1
      (Or.inl (by decide))⟩

end FeedbackSystem
